import Mathlib

/-!
Verification development for the Morrowland archetype-report service
(`src/app.py`). The Python source is shallowly embedded: each route
handler and helper becomes a pure Lean function over explicit inputs
(query parameters, the two narrative maps, the archetype registry, the
persisted free-code store). File-system effects are modelled by
explicit arguments (an `Option` for a possibly missing file, an
`Except` for a possibly failing JSON parse) and by returning the store
that would be written. Python dicts are modelled as association lists
with first-match lookup and in-place update, which agrees with dict
semantics because every dict in the program has unique keys. Strings
are treated at the ASCII level: `str.lower`, `str.strip`,
`str.capitalize` and the case-insensitive regexes of the source only
ever distinguish ASCII case in the inputs the claims concern.
-/

/-! ## Python string primitives -/

/-- Python whitespace test for `str.strip` and the regex class `\s`
(ASCII part: space, tab, newline, carriage return, vertical tab,
form feed). -/
def pySpace (c : Char) : Bool :=
  c = ' ' || c = '\t' || c = '\n' || c = '\r' || c = Char.ofNat 11 || c = Char.ofNat 12

/-- Strip whitespace from both ends of a character list. -/
def stripChars (cs : List Char) : List Char :=
  ((cs.dropWhile pySpace).reverse.dropWhile pySpace).reverse

/-- Python `str.strip()`. -/
def pyStrip (s : String) : String :=
  String.mk (stripChars s.data)

/-- Python `str.lower()` (ASCII). -/
def pyLower (s : String) : String :=
  String.mk (s.data.map Char.toLower)

/-- Python `str.capitalize()`: first character uppercased, the rest
lowercased. -/
def pyCapitalize (s : String) : String :=
  match s.data with
  | [] => ""
  | c :: cs => String.mk (c.toUpper :: cs.map Char.toLower)

/-- Python `str.replace(a, b)` for single characters. -/
def pyReplace (s : String) (a b : Char) : String :=
  String.mk (s.data.map (fun c => if c = a then b else c))

/-- Python `"sep".join(parts)`. -/
def pyJoin (sep : String) : List String → String
  | [] => ""
  | [s] => s
  | s :: rest => s ++ sep ++ pyJoin sep rest

/-- Truthiness of an optional Python string: `None` and `""` are falsy. -/
def pyTruthy : Option String → Bool
  | none => false
  | some s => s != ""

/-! ## Python dicts as association lists

Every dict in `app.py` (`by_code`, `by_name`, `ARCHETYPES`, the free-code
store) has unique keys, so first-match lookup and update-in-place model
`d.get(k)` / `k in d` / `d[k] = v` exactly. -/

/-- Dict lookup `d.get(k)`. -/
def lookupKey {α : Type} : List (String × α) → String → Option α
  | [], _ => none
  | (k, v) :: rest, key => if k = key then some v else lookupKey rest key

/-- Dict assignment `d[k] = v`: update in place when the key is present,
append otherwise. -/
def setKey {α : Type} : List (String × α) → String → α → List (String × α)
  | [], key, v => [(key, v)]
  | (k, w) :: rest, key, v =>
    if k = key then (k, v) :: rest else (k, w) :: setKey rest key v

theorem lookupKey_setKey_self {α : Type} (m : List (String × α)) (k : String) (v : α) :
    lookupKey (setKey m k v) k = some v := by
  induction m with
  | nil => simp [setKey, lookupKey]
  | cons hd tl ih =>
    obtain ⟨k0, w0⟩ := hd
    by_cases hk : k0 = k
    · simp [setKey, hk, lookupKey]
    · simp [setKey, hk, lookupKey, ih]

theorem lookupKey_setKey_ne {α : Type} (m : List (String × α)) (k d : String) (v : α)
    (h : d ≠ k) : lookupKey (setKey m k v) d = lookupKey m d := by
  have hk : k ≠ d := fun he => h he.symm
  induction m with
  | nil => simp [setKey, lookupKey, hk]
  | cons hd tl ih =>
    obtain ⟨k0, w0⟩ := hd
    by_cases h0 : k0 = k
    · subst h0
      simp [setKey, lookupKey, hk]
    · simp [setKey, h0, lookupKey, ih]

theorem map_fst_setKey {α : Type} (m : List (String × α)) (k : String) (v w : α)
    (h : lookupKey m k = some w) :
    (setKey m k v).map Prod.fst = m.map Prod.fst := by
  induction m with
  | nil => simp [lookupKey] at h
  | cons hd tl ih =>
    obtain ⟨k0, w0⟩ := hd
    by_cases hk : k0 = k
    · simp [setKey, hk]
    · simp [lookupKey, hk] at h
      simp [setKey, hk, ih h]

/-! ## Free-code store (`load_free_codes` / `save_free_codes` /
`generate_free_code` / `verify_free_code`)

The persisted JSON file maps a code to `{"used": bool}`; we model the
store as an association list of `(code, used)`. Each operation receives
the loaded store explicitly. `verify_free_code` returns the boolean
result together with the store passed to `save_free_codes`, or `none`
when the function returns without writing the file. -/

/-- `verify_free_code(code)`: success only when the code is present with
`used = False`; in that case the flag is set and the whole store is
persisted. The second component is the written store (`none` = the file
is not written). -/
def verify_free_code (codes : List (String × Bool)) (code : String) :
    Bool × Option (List (String × Bool)) :=
  match lookupKey codes code with
  | some used =>
    if used then (false, none) else (true, some (setKey codes code true))
  | none => (false, none)

/-- `generate_free_code()`: the random token is passed in explicitly
(modelling `secrets.token_hex(4).upper()`); the code is inserted with
`used = False`, the store is persisted, and the token is returned. -/
def generate_free_code (codes : List (String × Bool)) (token : String) :
    String × List (String × Bool) :=
  (token, setKey codes token false)

/-- The store left on disk after a sequence of `verify_free_code` calls:
each call that writes replaces the file, a failing call leaves it as is. -/
def runVerifies (s : List (String × Bool)) : List String → List (String × Bool)
  | [] => s
  | d :: ds => runVerifies ((verify_free_code s d).2.getD s) ds

theorem lookupKey_runVerifies (s : List (String × Bool)) (c : String)
    (ds : List String) (h : lookupKey s c ≠ some false) :
    lookupKey (runVerifies s ds) c = lookupKey s c := by
  induction ds generalizing s with
  | nil => simp [runVerifies]
  | cons d ds ih =>
    rcases hld : lookupKey s d with _ | u
    · simpa [runVerifies, verify_free_code, hld] using ih s h
    · cases u with
      | true => simpa [runVerifies, verify_free_code, hld] using ih s h
      | false =>
        have hdc : d ≠ c := by
          intro hdc
          subst hdc
          exact h hld
        have hpres : lookupKey (setKey s d true) c = lookupKey s c :=
          lookupKey_setKey_ne s d c true (fun hcd => hdc hcd.symm)
        have := ih (setKey s d true) (by rw [hpres]; exact h)
        simpa [runVerifies, verify_free_code, hld, hpres] using this

/-! ## The two regexes of `load_detailed_archetypes_docx`

`header_re` is
`(?i)openness\s*[:\-...]?\s*(low|medium|high).*?conscientiousness...`
(five trait words, each followed by an optional separator and a level,
with lazy gaps in between), applied with `re.search`. `archetype_re` is
`(?i)^archetype\s*[:\-...]?\s*(.+?)\s*$`, applied with `re.match` to an
already stripped line. Both are embedded as backtracking matchers whose
ordered choice mirrors the Python engine: leftmost start, greedy `\s*`
and `?`, lazy `.*?`, alternation in written order. The separator class
holds colon, hyphen, en dash and em dash; `.` never crosses a newline. -/

def sepChars : List Char := [':', '-', '–', '—']

/-- Case-insensitive literal match of `pat` at the head of `cs`,
returning the rest on success. -/
def matchCI : List Char → List Char → Option (List Char)
  | [], cs => some cs
  | _ :: _, [] => none
  | p :: ps, c :: cs => if c.toLower = p.toLower then matchCI ps cs else none

/-- Like `matchCI` but also returns the consumed characters in their
original case (regex groups capture the input text, not the pattern). -/
def matchCIcap : List Char → List Char → Option (List Char × List Char)
  | [], cs => some ([], cs)
  | _ :: _, [] => none
  | p :: ps, c :: cs =>
    if c.toLower = p.toLower then
      match matchCIcap ps cs with
      | some (cap, r) => some (c :: cap, r)
      | none => none
    else none

/-- Greedy `\s*`. -/
def skipWs : List Char → List Char
  | [] => []
  | c :: cs => if pySpace c then skipWs cs else c :: cs

/-- The alternation `(low|medium|high)` at the current position,
capturing the matched text. The three branches start with distinct
letters, so at most one can match and no backtracking order matters. -/
def lvlAt (cs : List Char) : Option (String × List Char) :=
  match matchCIcap "low".data cs with
  | some (cap, r) => some (String.mk cap, r)
  | none =>
    match matchCIcap "medium".data cs with
    | some (cap, r) => some (String.mk cap, r)
    | none =>
      match matchCIcap "high".data cs with
      | some (cap, r) => some (String.mk cap, r)
      | none => none

/-- `\s*[:\-...]?\s*(low|medium|high)`. Taking `\s*` maximal and the
separator greedily loses no matches: the separator characters are not
whitespace and no level literal starts with whitespace or a separator,
so the greedy choice is the only one that can succeed. -/
def sepLvl (cs : List Char) : Option (String × List Char) :=
  match skipWs cs with
  | [] => none
  | c :: rest =>
    if sepChars.contains c then lvlAt (skipWs rest) else lvlAt (c :: rest)

/-- One trait block at a fixed position: the literal word, its
separator-and-level, then the continuation on the rest. -/
def attemptWord (w : List Char) (k : List Char → Option (List String))
    (cs : List Char) : Option (List String) :=
  match matchCI w cs with
  | none => none
  | some r =>
    match sepLvl r with
    | none => none
    | some (cap, r2) =>
      match k r2 with
      | none => none
      | some caps => some (cap :: caps)

/-- The lazy gap `.*?` before a block: try the block at the earliest
offset first, retrying further only while no newline intervenes
(`.` does not match a newline). -/
def scanGap (att : List Char → Option (List String)) : List Char → Option (List String)
  | [] => none
  | c :: cs =>
    match att (c :: cs) with
    | some r => some r
    | none => if c = '\n' then none else scanGap att cs

/-- The remaining trait blocks, each preceded by a lazy gap. -/
def chainWords : List (List Char) → List Char → Option (List String)
  | [], _ => some []
  | w :: ws, cs => scanGap (attemptWord w (fun r2 => chainWords ws r2)) cs

/-- The four trait words that follow `openness` in `header_re`. -/
def traitWords : List (List Char) :=
  ["conscientiousness".data, "extraversion".data, "agreeableness".data,
   "neuroticism".data]

/-- `re.search(header_re, line)`: try a match anchored at every start
position, leftmost first, returning the five captured level strings. -/
def headerScan : List Char → Option (List String)
  | [] => none
  | c :: cs =>
    match attemptWord "openness".data (chainWords traitWords) (c :: cs) with
    | some caps => some caps
    | none => headerScan cs

/-- `header_re.search` on a line. -/
def headerSearch (s : String) : Option (List String) :=
  headerScan s.data

/-- `archetype_re.match(next_line)` followed by `.group(1)`, for the
already stripped `next_line` the source applies it to. After the literal
`archetype`, greedy `\s*` and an optional separator position the lazy
group `(.+?)`, which must then extend to the end of the line because
`\s*$` can consume nothing on a stripped line; when the separator is
present but nothing follows it, backtracking releases the separator
character into the group (so `"archetype:"` yields the name `":"`).
The group cannot contain a newline (`.` does not match one). -/
def archetypeMatch (s : String) : Option String :=
  match matchCI "archetype".data s.data with
  | none => none
  | some r =>
    match skipWs r with
    | [] => none
    | c :: rest =>
      let g : List Char :=
        if sepChars.contains c then
          match skipWs rest with
          | [] => [c]
          | g0 => g0
        else c :: rest
      if g.contains '\n' then none else some (String.mk g)

/-! ## The extractor `load_detailed_archetypes_docx`

The document is modelled as its ordered list of paragraph texts
(`raw_lines`); `lines` is the stripped copy the source builds up front.
The single forward pass is `extractGo`: mutable `i` becomes an explicit
index (kept for the `Unknown_{i}` placeholder), the remaining raw lines
an explicit list, and the accumulator an `ExtractState`. -/

structure ExtractState where
  by_code : List (String × String)
  by_name : List (String × String)
  cur_code : Option String
  cur_name : Option String
  buffer : List String
deriving DecidableEq

/-- The nested `flush()`: when `current_code` and the buffer are both
truthy, join the buffered raw lines with newlines, strip, and record the
text under the code (and under the name when that is truthy); the buffer
is reset in every case. -/
def flush (st : ExtractState) : ExtractState :=
  if pyTruthy st.cur_code && !st.buffer.isEmpty then
    match st.cur_code with
    | some c =>
      let text := pyStrip (pyJoin "\n" st.buffer)
      { st with
        by_code := setKey st.by_code c text
        by_name :=
          match st.cur_name with
          | some nm => if nm != "" then setKey st.by_name nm text else st.by_name
          | none => st.by_name
        buffer := [] }
    | none => { st with buffer := [] }
  else { st with buffer := [] }

/-- The lookahead `for j in range(1, 4)` over the lines after a header:
the first of the next three lines matching `archetype_re` gives the name
(stripped) and the offset `j` the scan cursor jumps by. Each candidate
is `lines[i + j].strip()`, that is, the raw line stripped twice. -/
def lookName : List String → Option (String × Nat)
  | [] => none
  | a :: rest1 =>
    match archetypeMatch (pyStrip (pyStrip a)) with
    | some g => some (pyStrip g, 1)
    | none =>
      match rest1 with
      | [] => none
      | b :: rest2 =>
        match archetypeMatch (pyStrip (pyStrip b)) with
        | some g => some (pyStrip g, 2)
        | none =>
          match rest2 with
          | [] => none
          | c :: _ =>
            match archetypeMatch (pyStrip (pyStrip c)) with
            | some g => some (pyStrip g, 3)
            | none => none

/-- The `while i < n` loop. On a header line: flush, build the new code
by capitalizing the five captured levels and joining with hyphens, then
either adopt the looked-ahead name and jump past it, or synthesize
`Unknown_{i}`. On any other line: append the raw line to the buffer when
a code is active. -/
def extractGo (i : Nat) (rem : List String) (st : ExtractState) : ExtractState :=
  match rem with
  | [] => st
  | r :: rest =>
    match headerSearch (pyStrip r) with
    | some gs =>
      let st1 := flush st
      let code := pyJoin "-" (gs.map pyCapitalize)
      match lookName rest with
      | some (nm, j) =>
        extractGo (i + j + 1) (rest.drop j)
          { st1 with cur_code := some code, cur_name := some nm }
      | none =>
        extractGo (i + 1) rest
          { st1 with cur_code := some code,
                     cur_name := some ("Unknown_" ++ toString i) }
    | none =>
      if pyTruthy st.cur_code then
        extractGo (i + 1) rest { st with buffer := st.buffer ++ [r] }
      else
        extractGo (i + 1) rest st
termination_by rem.length
decreasing_by
  · simp [List.length_drop]
    omega
  · simp
  · simp
  · simp

/-- The whole pass over an existing document: run the loop from index 0
with the empty state, apply the final flush, return the two maps. -/
def extract_archetypes (raw_lines : List String) :
    List (String × String) × List (String × String) :=
  let st := extractGo 0 raw_lines
    { by_code := [], by_name := [], cur_code := none, cur_name := none, buffer := [] }
  let st2 := flush st
  (st2.by_code, st2.by_name)

/-- `load_detailed_archetypes_docx(file_path)`: `none` models a missing
file (`os.path.exists` false), in which case two empty dicts are
returned without raising; otherwise the paragraphs are scanned. -/
def load_detailed_archetypes_docx :
    Option (List String) → List (String × String) × List (String × String)
  | none => ([], [])
  | some raw_lines => extract_archetypes raw_lines

/-! ## The archetype registry `load_archetypes`

A candidate file is `none` when `os.path.exists` is false, otherwise the
outcome of `json.load`: `Except.error ()` when the contents are not
valid JSON (the exception propagates, there is no handler in the
source), or `Except.ok` with the parsed value. The registry only ever
uses string-to-string objects, so a parsed value is either such an
object or some other JSON value. -/

inductive JVal where
  | jobj (entries : List (String × String))
  | jother
deriving DecidableEq

/-- The candidate file names, in priority order. -/
def archetypeFiles : List String := ["archetypes_full.json", "archetypes.json"]

/-- The built-in fallback registry. -/
def fallbackArchetypes : List (String × String) := [("Low-Low-Low-Low-Low", "Aquashine")]

/-- The `for file in [...]` loop of `load_archetypes`: the first
existing file is parsed; a parse failure propagates; a parsed value that
is a non-empty dict is returned; anything else moves on to the next
candidate; when no candidate succeeds the fallback is returned. -/
def load_archetypes_from :
    List String → (String → Option (Except Unit JVal)) →
    Except Unit (List (String × String))
  | [], _ => Except.ok fallbackArchetypes
  | f :: rest, fs =>
    match fs f with
    | none => load_archetypes_from rest fs
    | some (Except.error e) => Except.error e
    | some (Except.ok (JVal.jobj entries)) =>
      if entries.isEmpty then load_archetypes_from rest fs else Except.ok entries
    | some (Except.ok JVal.jother) => load_archetypes_from rest fs

/-- `load_archetypes()` over a file-system state. -/
def load_archetypes (fs : String → Option (Except Unit JVal)) :
    Except Unit (List (String × String)) :=
  load_archetypes_from archetypeFiles fs

/-! ## The routes `/api/render-report` and `/api/download-report`

Each handler is a pure function of its query parameters and of the
global tables (`DETAILED_BY_CODE`, `DETAILED_BY_NAME`, `ARCHETYPES`).
Neither takes the free-code store: `download_report` in the source reads
no `paid` parameter and never consults the code store, which the model
makes structural. The records below hold exactly the data the handlers
put into the rendered template or the generated document. -/

structure RenderedReport where
  archetype : String
  traits : String
  subtype : String
  sections : List (String × String)
  quote : String
deriving DecidableEq

/-- The fixed preview text shown to unpaid requests. -/
def previewMessage : String :=
  "Preview only. Purchase or use a free code to unlock the full report."

/-- `api_render_report()`, lines 181-207 of `app.py`. `paid` is the
query string lowercased and compared to `"true"`; the narrative is
resolved by code, then by registry name; missing text and missing name
fall back to placeholders; unpaid requests get the single fixed preview
section. -/
def api_render_report (code paidParam : String)
    (byCode byName archetypes : List (String × String)) : RenderedReport :=
  let paid : Bool := pyLower paidParam == "true"
  let dt0 : Option String := lookupKey byCode code
  let step1 : Option String × Option String :=
    if !pyTruthy dt0 && (lookupKey archetypes code).isSome then
      match lookupKey archetypes code with
      | some nm => (lookupKey byName nm, some nm)
      | none => (dt0, none)
    else (dt0, none)
  let detailed_text : String :=
    if pyTruthy step1.1 then step1.1.getD "" else "Detailed report not found."
  let archetype_name : Option String :=
    if !pyTruthy step1.2 && (lookupKey archetypes code).isSome then
      lookupKey archetypes code
    else step1.2
  { archetype := if pyTruthy archetype_name then archetype_name.getD "" else "Unknown"
    traits := code
    subtype := if paid then "N/A" else "Locked"
    sections :=
      if paid then [("Detailed Report", detailed_text)]
      else [("Summary", previewMessage)]
    quote := "“Depth rewards patience.”" }

structure DownloadResult where
  download_name : String
  heading : String
  body : String
deriving DecidableEq

/-- `download_report()`, lines 213-229 of `app.py`: the display name
comes from the registry (default `"Unknown"`), the text from the
by-code map or else the by-name map under that display name (Python
`or`, so an empty string is also passed over), with a literal fallback;
the attachment is named from the display name with spaces replaced by
underscores. No `paid` parameter and no access-code store appear. -/
def download_report (code : String)
    (archetypes byCode byName : List (String × String)) : DownloadResult :=
  let name : String := (lookupKey archetypes code).getD "Unknown"
  let detailed_text : Option String :=
    match lookupKey byCode code with
    | some t => if t != "" then some t else lookupKey byName name
    | none => lookupKey byName name
  { download_name := pyReplace name ' ' '_' ++ "_Detailed_Report.docx"
    heading := name
    body :=
      match detailed_text with
      | some t => if t != "" then t else "Detailed text not found."
      | none => "Detailed text not found." }

/-- The header line of the spec scenario for the extractor. -/
def c4HeaderLine : String :=
  "Openness: High, Conscientiousness: Low, Extraversion: Medium, Agreeableness: High, Neuroticism: Low"

/-- A file-system state in which the first candidate registry file
exists but holds malformed JSON, so `json.load` raises. -/
def badRegistryState : String → Option (Except Unit JVal) :=
  fun f => if f = "archetypes_full.json" then some (Except.error ()) else none

/-! ## Helper lemmas about the free-code store -/

theorem verify_free_code_fails (s : List (String × Bool)) (c : String)
    (h : lookupKey s c ≠ some false) : verify_free_code s c = (false, none) := by
  rcases hl : lookupKey s c with _ | u
  · simp [verify_free_code, hl]
  · cases u with
    | false => exact absurd hl h
    | true => simp [verify_free_code, hl]

/-! ## Claim theorems -/

/-- Claim C1: for every request to `/api/render-report` whose `paid`
query parameter does not lowercase to the literal `"true"`, the rendered
sections are exactly the single fixed preview entry, for every state of
the narrative maps and the registry — so no narrative text is ever
transmitted to an unpaid request. -/
theorem render_report_unpaid_preview_only (code p : String)
    (bc bn ar : List (String × String)) (h : pyLower p ≠ "true") :
    (api_render_report code p bc bn ar).sections = [("Summary", previewMessage)] := by
  have hp : (pyLower p == "true") = false := beq_eq_false_iff_ne.mpr h
  simp [api_render_report, hp]

theorem render_report_unpaid_preview_only_witness :
    pyLower "FALSE" ≠ "true" ∧
    (api_render_report "High-Low-Medium-High-Low" "FALSE"
        [("High-Low-Medium-High-Low", "secret")] [] []).sections
      = [("Summary", previewMessage)] :=
  ⟨by decide, render_report_unpaid_preview_only _ _ _ _ _ (by decide)⟩

/-- Claim C2: `/api/download-report` performs no payment or access-code
check. The model `download_report` is, structurally, a function of the
code and the three lookup tables only — no `paid` parameter and no
free-code store occur in its type — and for every trait-code present in
the by-code map the generated document body contains that full narrative
text (when the stored text is non-empty the body is the text itself;
the empty string is trivially contained). -/
theorem download_report_serves_narrative_unconditionally (code t : String)
    (ar bc bn : List (String × String)) (h : lookupKey bc code = some t) :
    List.IsInfix t.data (download_report code ar bc bn).body.data := by
  by_cases ht : t = ""
  · subst ht
    simp
  · have hb : (t != "") = true := by simp [ht]
    have hbody : (download_report code ar bc bn).body = t := by
      simp [download_report, h, hb]
    rw [hbody]

theorem download_report_serves_narrative_unconditionally_witness :
    lookupKey [("X", "hello")] "X" = some "hello" ∧
    List.IsInfix "hello".data (download_report "X" [] [("X", "hello")] []).body.data :=
  ⟨rfl, download_report_serves_narrative_unconditionally "X" "hello" [] [("X", "hello")] [] rfl⟩

/-- Claim C3: `verify_free_code` authorizes a token at most once. For a
token that is absent from the store or whose `used` flag is already
`true` (that is, whose stored entry is not `used = false`), the call
fails without writing, and it still fails after any further sequence of
verify calls on the persisted store. -/
theorem verify_free_code_at_most_once (s : List (String × Bool)) (c : String)
    (h : lookupKey s c ≠ some false) :
    verify_free_code s c = (false, none) ∧
    ∀ ds : List String, verify_free_code (runVerifies s ds) c = (false, none) := by
  refine ⟨verify_free_code_fails s c h, fun ds => ?_⟩
  refine verify_free_code_fails _ _ ?_
  rw [lookupKey_runVerifies s c ds h]
  exact h

theorem verify_free_code_at_most_once_witness :
    lookupKey [("A", true)] "A" = some true ∧
    verify_free_code [("A", true)] "A" = (false, none) ∧
    verify_free_code (runVerifies [("A", true)] ["A", "B"]) "A" = (false, none) := by
  have h := verify_free_code_at_most_once [("A", true)] "A" (by decide)
  exact ⟨by decide, h.1, h.2 ["A", "B"]⟩

/-- Claim C6 counterexample: the claim says loading is never fatal for
every state of the candidate files, but `load_archetypes` has no
exception handler around `json.load`; a file-system state in which
`archetypes_full.json` exists with malformed contents makes the parse
error propagate, and the fallback is not returned. -/
theorem load_archetypes_invalid_json_raises :
    load_archetypes badRegistryState = Except.error () ∧
    load_archetypes badRegistryState ≠ Except.ok fallbackArchetypes := by
  constructor
  · rfl
  · intro hcontra
    rw [show load_archetypes badRegistryState = Except.error () from rfl] at hcontra
    exact Except.noConfusion hcontra

/-- Claim C6 amended: when every candidate registry file is missing or
parses to something other than a non-empty JSON object, the loader
returns the one-entry built-in fallback without raising; a candidate
file that exists but is not valid JSON instead propagates the parse
error (see the counterexample). -/
theorem load_archetypes_fallback_when_no_valid_object
    (fs : String → Option (Except Unit JVal))
    (h : ∀ f, f ∈ archetypeFiles →
      fs f = none ∨ fs f = some (Except.ok JVal.jother) ∨
        fs f = some (Except.ok (JVal.jobj []))) :
    load_archetypes fs = Except.ok fallbackArchetypes := by
  have h1 := h "archetypes_full.json" (by simp [archetypeFiles])
  have h2 := h "archetypes.json" (by simp [archetypeFiles])
  unfold load_archetypes archetypeFiles
  rcases h1 with h1 | h1 | h1 <;> rcases h2 with h2 | h2 | h2 <;>
    simp [load_archetypes_from, h1, h2]

theorem load_archetypes_fallback_when_no_valid_object_witness :
    load_archetypes (fun _ => none) = Except.ok fallbackArchetypes :=
  load_archetypes_fallback_when_no_valid_object (fun _ => none) (fun _ _ => Or.inl rfl)

/-- Claim C7: when the source document file does not exist, the
extractor returns two empty mappings and does not raise (the embedding
is total, so evaluation itself witnesses the absence of an exception). -/
theorem load_docx_missing_file_empty :
    load_detailed_archetypes_docx none
      = (([] : List (String × String)), ([] : List (String × String))) :=
  rfl

/-- Claim C8: a token freshly inserted by `generate_free_code` (with
`used = false`, overwriting any stale entry) verifies successfully
exactly once: the first `verify_free_code` succeeds and persists the
flipped flag, and every later verify call on the persisted store with
the same token fails, whatever verify calls happen in between. -/
theorem generate_then_verify_succeeds_once (s : List (String × Bool)) (tok : String) :
    verify_free_code (generate_free_code s tok).2 tok
      = (true, some (setKey (generate_free_code s tok).2 tok true)) ∧
    ∀ ds : List String,
      verify_free_code (runVerifies (setKey (generate_free_code s tok).2 tok true) ds) tok
        = (false, none) := by
  have hl : lookupKey (generate_free_code s tok).2 tok = some false := by
    simpa [generate_free_code] using lookupKey_setKey_self s tok false
  have hl2 : lookupKey (setKey (generate_free_code s tok).2 tok true) tok = some true :=
    lookupKey_setKey_self _ tok true
  refine ⟨by simp [verify_free_code, hl], fun ds => ?_⟩
  refine verify_free_code_fails _ _ ?_
  rw [lookupKey_runVerifies _ tok ds (by simp [hl2]), hl2]
  simp

/-- Claim C9 counterexample: the claim quantifies over states where
`"Unknown-Code"` is absent from the registry and from both narrative
maps, but the handler looks the by-name map up under the fallback
display name `"Unknown"`, not under the requested code; a by-name map
holding an entry for `"Unknown"` makes the response carry that text
rather than the literal fallback. The empty list below is at once the
registry and the by-code map, so all three absence premises of the claim
hold at this input. -/
theorem download_unknown_code_name_shadowed :
    lookupKey ([] : List (String × String)) "Unknown-Code" = none ∧
    lookupKey [("Unknown", "leaked narrative")] "Unknown-Code" = none ∧
    (download_report "Unknown-Code" [] [] [("Unknown", "leaked narrative")]).body
      = "leaked narrative" ∧
    (download_report "Unknown-Code" [] [] [("Unknown", "leaked narrative")]).body
      ≠ "Detailed text not found." := by decide

/-- Claim C9 amended: with `"Unknown-Code"` absent from the registry and
the by-code map, and the by-name map also holding no entry under the
fallback display name `"Unknown"`, the download is the attachment
`Unknown_Detailed_Report.docx` whose document body is the literal
fallback text. -/
theorem download_unknown_code_fallback (ar bc bn : List (String × String))
    (h1 : lookupKey ar "Unknown-Code" = none)
    (h2 : lookupKey bc "Unknown-Code" = none)
    (h3 : lookupKey bn "Unknown" = none) :
    download_report "Unknown-Code" ar bc bn =
      { download_name := "Unknown_Detailed_Report.docx",
        heading := "Unknown", body := "Detailed text not found." } := by
  simp only [download_report, h1, h2, h3, Option.getD]
  decide

theorem download_unknown_code_fallback_witness :
    download_report "Unknown-Code" [] [] [] =
      { download_name := "Unknown_Detailed_Report.docx",
        heading := "Unknown", body := "Detailed text not found." } :=
  download_unknown_code_fallback [] [] [] rfl rfl rfl

/-- Claim C10: `verify_free_code` is frame-preserving and atomic on
failure. A failing call writes nothing; a successful call writes exactly
the loaded store with the one token flipped from `used = false` to
`used = true`: every other key keeps its value and the key sequence of
the store is unchanged. -/
theorem verify_free_code_frame (s : List (String × Bool)) (c : String) :
    ((verify_free_code s c).1 = false → (verify_free_code s c).2 = none) ∧
    (∀ s', verify_free_code s c = (true, some s') →
      lookupKey s c = some false ∧
      s' = setKey s c true ∧
      lookupKey s' c = some true ∧
      (∀ d, d ≠ c → lookupKey s' d = lookupKey s d) ∧
      s'.map Prod.fst = s.map Prod.fst) := by
  constructor
  · intro h1
    rcases hl : lookupKey s c with _ | u
    · simp [verify_free_code, hl]
    · cases u with
      | false => simp [verify_free_code, hl] at h1
      | true => simp [verify_free_code, hl]
  · intro s' h
    rcases hl : lookupKey s c with _ | u
    · simp [verify_free_code, hl] at h
    · cases u with
      | true => simp [verify_free_code, hl] at h
      | false =>
        have hs : s' = setKey s c true := by
          simp [verify_free_code, hl] at h
          exact h.symm
        subst hs
        exact ⟨rfl, rfl, lookupKey_setKey_self s c true,
          fun d hd => lookupKey_setKey_ne s c d true hd,
          map_fst_setKey s c true false hl⟩


theorem verify_free_code_frame_witness :
    (verify_free_code [("B", true)] "A").2 = none ∧
    lookupKey [("A", false), ("B", true)] "A" = some false ∧
    lookupKey [("A", true), ("B", true)] "B" = lookupKey [("A", false), ("B", true)] "B" ∧
    List.map Prod.fst [("A", true), ("B", true)]
      = List.map Prod.fst [("A", false), ("B", true)] := by
  have h1 := (verify_free_code_frame [("B", true)] "A").1 (by decide)
  have h2 := (verify_free_code_frame [("A", false), ("B", true)] "A").2
      [("A", true), ("B", true)] (by decide)
  exact ⟨h1, h2.1, h2.2.2.2.1 "B" (by decide), h2.2.2.2.2⟩

/-! ## Helper lemmas for the extractor -/

theorem flush_no_record_on_empty_buffer (st : ExtractState) (h : st.buffer = []) :
    flush st = { st with buffer := [] } := by
  simp [flush, h]

theorem append_hyphen_ne_empty (x y : String) : x ++ "-" ++ y ≠ "" := by
  intro hcontra
  have hd := congrArg String.data hcontra
  simp [String.data_append] at hd

/-- Claim C4: the spec scenario for the extractor. A document holding
the header line, an arbitrary intervening line (not an archetype label),
the line `Archetype: Starlight Wanderer`, and then two body paragraphs
(neither matching the header pattern) yields the trait-code
`High-Low-Medium-High-Low` mapped to the two body paragraphs joined with
a newline and stripped, and the name `Starlight Wanderer` mapped to the
same text. -/
theorem extractor_scenario_starlight (mid b1 b2 : String)
    (hmid : archetypeMatch (pyStrip (pyStrip mid)) = none)
    (hb1 : headerSearch (pyStrip b1) = none)
    (hb2 : headerSearch (pyStrip b2) = none) :
    lookupKey (extract_archetypes
        [c4HeaderLine, mid, "Archetype: Starlight Wanderer", b1, b2]).1
      "High-Low-Medium-High-Low" = some (pyStrip (b1 ++ "\n" ++ b2)) ∧
    lookupKey (extract_archetypes
        [c4HeaderLine, mid, "Archetype: Starlight Wanderer", b1, b2]).2
      "Starlight Wanderer" = some (pyStrip (b1 ++ "\n" ++ b2)) := by
  have hh : headerSearch (pyStrip c4HeaderLine)
      = some ["High", "Low", "Medium", "High", "Low"] := by decide
  have harch : archetypeMatch (pyStrip (pyStrip "Archetype: Starlight Wanderer"))
      = some "Starlight Wanderer" := by decide
  have hsw : pyStrip "Starlight Wanderer" = "Starlight Wanderer" := by decide
  have hlook : lookName [mid, "Archetype: Starlight Wanderer", b1, b2]
      = some ("Starlight Wanderer", 2) := by
    simp [lookName, hmid, harch, hsw]
  have hcode : pyJoin "-" (["High", "Low", "Medium", "High", "Low"].map pyCapitalize)
      = "High-Low-Medium-High-Low" := by decide
  have htr : pyTruthy (some "High-Low-Medium-High-Low") = true := by decide
  have hnm : ("Starlight Wanderer" != "") = true := by decide
  simp [extract_archetypes, extractGo, hh, hlook, hb1, hb2, hcode, htr, flush,
    pyTruthy, hnm, pyJoin, setKey, lookupKey]
  decide

theorem extractor_scenario_starlight_witness :
    archetypeMatch (pyStrip (pyStrip "")) = none ∧
    headerSearch (pyStrip "Alpha body.") = none ∧
    headerSearch (pyStrip "Beta body.") = none ∧
    lookupKey (extract_archetypes
        [c4HeaderLine, "", "Archetype: Starlight Wanderer", "Alpha body.", "Beta body."]).1
      "High-Low-Medium-High-Low" = some (pyStrip ("Alpha body." ++ "\n" ++ "Beta body.")) ∧
    lookupKey (extract_archetypes
        [c4HeaderLine, "", "Archetype: Starlight Wanderer", "Alpha body.", "Beta body."]).2
      "Starlight Wanderer" = some (pyStrip ("Alpha body." ++ "\n" ++ "Beta body.")) := by
  have h := extractor_scenario_starlight "" "Alpha body." "Beta body."
    (by decide) (by decide) (by decide)
  exact ⟨by decide, by decide, by decide, h.1, h.2⟩

/-- Claim C5: two extractor edge policies. First, a flush on an empty
accumulation buffer commits nothing: both output maps are unchanged, so
a header with no trailing narrative produces no record under its code or
name. Second, last wins: a document with two headers carrying the same
five levels, each followed by one body paragraph, ends with the single
by-code record holding the later body text. -/
theorem extractor_empty_flush_and_last_wins
    (hline b1 b2 o c e a nn : String)
    (hh : headerSearch (pyStrip hline) = some [o, c, e, a, nn])
    (ha1 : archetypeMatch (pyStrip (pyStrip b1)) = none)
    (hah : archetypeMatch (pyStrip (pyStrip hline)) = none)
    (ha2 : archetypeMatch (pyStrip (pyStrip b2)) = none)
    (hs1 : headerSearch (pyStrip b1) = none)
    (hs2 : headerSearch (pyStrip b2) = none) :
    (∀ st : ExtractState, st.buffer = [] →
        (flush st).by_code = st.by_code ∧ (flush st).by_name = st.by_name) ∧
    (extract_archetypes [hline, b1, hline, b2]).1
      = [(pyJoin "-" ([o, c, e, a, nn].map pyCapitalize), pyStrip b2)] := by
  constructor
  · intro st h
    rw [flush_no_record_on_empty_buffer st h]
    exact ⟨rfl, rfl⟩
  · have hlook1 : lookName [b1, hline, b2] = none := by
      simp [lookName, ha1, hah, ha2]
    have hlook2 : lookName [b2] = none := by
      simp [lookName, ha2]
    have hne : pyJoin "-" [pyCapitalize o, pyCapitalize c, pyCapitalize e,
        pyCapitalize a, pyCapitalize nn] ≠ "" := by
      simp only [pyJoin]
      exact append_hyphen_ne_empty _ _
    have htr : pyTruthy (some (pyJoin "-" [pyCapitalize o, pyCapitalize c, pyCapitalize e,
        pyCapitalize a, pyCapitalize nn])) = true := by
      simp [pyTruthy, hne]
    have hu0 : (("Unknown_" ++ toString (0 : Nat)) != "") = true := by decide
    have hu2 : (("Unknown_" ++ toString (2 : Nat)) != "") = true := by decide
    have hj1 : pyJoin "\n" [b1] = b1 := rfl
    have hj2 : pyJoin "\n" [b2] = b2 := rfl
    simp [extract_archetypes, extractGo, hh, hlook1, hlook2, hs1, hs2, htr, flush,
      hu0, hu2, hj1, hj2, setKey, lookupKey]

theorem extractor_empty_flush_and_last_wins_witness :
    (flush { by_code := [("k", "v")], by_name := [], cur_code := some "X",
             cur_name := none, buffer := [] }).by_code = [("k", "v")] ∧
    (extract_archetypes [c4HeaderLine, "One.", c4HeaderLine, "Two."]).1
      = [("High-Low-Medium-High-Low", pyStrip "Two.")] := by
  have h := extractor_empty_flush_and_last_wins c4HeaderLine "One." "Two."
    "High" "Low" "Medium" "High" "Low" (by decide) (by decide) (by decide)
    (by decide) (by decide) (by decide)
  refine ⟨(h.1 _ rfl).1, ?_⟩
  have hc : pyJoin "-" (["High", "Low", "Medium", "High", "Low"].map pyCapitalize)
      = "High-Low-Medium-High-Low" := by decide
  rw [h.2, hc]
